import Mathlib

/-!
Verification development for the LLMO diagnosis web tool.

The repository's core is a TypeScript pipeline: URL validation (`validateUrl`),
web-page scraping and content extraction (`scrapeWebpage` / `extractMetadata`),
an analysis-client truncation step (`diagnoseWebsiteContent`), a Supabase cache
gateway (`getCachedDiagnosis` / `saveDiagnosisCache`), an anonymous-user
redaction filter (`filterDiagnosisForAnonymous`), and the `POST /api/diagnose`
orchestrator.  This file gives a shallow embedding of those functions over
`String` (represented by its `List Char` data) and proves properties about
them.  JavaScript strings are modelled as sequences of characters; the rare
places where UTF-16 code-unit indexing could differ from character indexing
(astral-plane characters) are noted at the definitions concerned.
-/

deriving instance DecidableEq for Except

/-! ## Basic character and string helpers -/

/-- Characters treated as whitespace, the common core of JavaScript's
`\s` class and `String.prototype.trim`. -/
def isJsSpace (c : Char) : Bool :=
  c = ' ' || c = '\t' || c = '\n' || c = '\r' || c = '\x0b' || c = '\x0c' || c = ' '

/-- ASCII lower-casing of one character, as done by `toLowerCase` on ASCII. -/
def charLower (c : Char) : Char :=
  if 'A' ≤ c ∧ c ≤ 'Z' then Char.ofNat (c.toNat + 32) else c

/-- ASCII digit test. -/
def isDigitCh (c : Char) : Bool := '0' ≤ c && c ≤ '9'

/-- ASCII lower-case letter test. -/
def isLowerAlpha (c : Char) : Bool := 'a' ≤ c && c ≤ 'z'

/-- ASCII letter test. -/
def isAlphaCh (c : Char) : Bool := isLowerAlpha c || isLowerAlpha (charLower c)

/-- Lower-case every character of a string (model of `toLowerCase`;
full Unicode case mapping is irrelevant to the ASCII/Japanese data here). -/
def strToLower (s : String) : String := ⟨s.data.map charLower⟩

/-- Model of JavaScript `String.prototype.trim`: strip leading and trailing
whitespace characters. -/
def jsTrim (s : String) : String :=
  ⟨((s.data.dropWhile isJsSpace).reverse.dropWhile isJsSpace).reverse⟩

/-- Model of JavaScript `substring(0, n)`: the first `n` characters. -/
def substringTo (s : String) (n : Nat) : String := ⟨s.data.take n⟩

/-- Model of `String.prototype.startsWith`. -/
def strStartsWith (s pre : String) : Bool := pre.data.isPrefixOf s.data

/-- Model of `String.prototype.endsWith`. -/
def strEndsWith (s suf : String) : Bool := suf.data.reverse.isPrefixOf s.data.reverse

/-- Substring containment over character lists (model of `includes`). -/
def hasSubstrL (pat : List Char) : List Char → Bool
  | [] => decide (pat = [])
  | c :: t => pat.isPrefixOf (c :: t) || hasSubstrL pat t

/-- Model of `String.prototype.includes`. -/
def strIncludes (s pat : String) : Bool := hasSubstrL pat.data s.data

/-- Model of JavaScript `split('\n')`: split at every newline, keeping empty
pieces; the accumulator holds the current piece reversed. -/
def splitNlAux : List Char → List Char → List String
  | acc, [] => [⟨acc.reverse⟩]
  | acc, c :: rest =>
    if c = '\n' then ⟨acc.reverse⟩ :: splitNlAux [] rest
    else splitNlAux (c :: acc) rest

/-- Model of JavaScript `split('\n')` on a string. -/
def splitNl (s : String) : List String := splitNlAux [] s.data

/-- Model of JavaScript `Array.prototype.join('\n')`. -/
def joinNl : List String → String
  | [] => ""
  | [s] => s
  | s :: rest => s ++ "\n" ++ joinNl rest

/-! ## Redaction filter (`filterDiagnosisForAnonymous`, src/lib/auth.ts)

The source iterates over the lines of the report with a single mutable
boolean `inRestrictedSection`, pushing transformed lines onto an output
array.  `filterLoop` is that loop; `nextFlag` and `emitLine` factor one
iteration into its state update and its output lines. -/

/-- Fixed masking placeholder pushed for restricted non-list lines. -/
def maskPlaceholder : String := "●●●●● 詳細を見るには会員登録が必要です ●●●●●"

/-- Masked form of a restricted list-item line: first 20 characters followed
by the masking marker (`line.substring(0, Math.min(line.length, 20))`). -/
def listMask (line : String) : String := substringTo line 20 ++ "... ●●●●●"

/-- Score-line test, model of
`line.match(/\d+(\.\d+)?[%点]|[A-F]評価|スコア:|評価:/)`:
does a match of the numeric alternative start exactly at the head? -/
def scoreNumAt (cs : List Char) : Bool :=
  let ds := cs.takeWhile isDigitCh
  let r1 := cs.drop ds.length
  decide (ds ≠ []) &&
    ((match r1 with
      | c :: _ => c = '%' || c = '点'
      | [] => false)
     ||
     (match r1 with
      | '.' :: r2 =>
        let ds2 := r2.takeWhile isDigitCh
        decide (ds2 ≠ []) &&
          (match r2.drop ds2.length with
           | c :: _ => c = '%' || c = '点'
           | [] => false)
      | _ => false))

/-- Search every start position for the numeric score alternative. -/
def hasScoreNum : List Char → Bool
  | [] => false
  | c :: t => scoreNumAt (c :: t) || hasScoreNum t

/-- Does a match of `[A-F]評価` start exactly at the head? -/
def gradeAt (cs : List Char) : Bool :=
  match cs with
  | c :: rest => ('A' ≤ c && c ≤ 'F') && "評価".data.isPrefixOf rest
  | [] => false

/-- Search every start position for the letter-grade alternative. -/
def hasGrade : List Char → Bool
  | [] => false
  | c :: t => gradeAt (c :: t) || hasGrade t

/-- Model of the evaluative score/grade regex test on a whole line. -/
def scoreLine (line : String) : Bool :=
  hasScoreNum line.data || hasGrade line.data ||
    strIncludes line "スコア:" || strIncludes line "評価:"

/-- Restricted-section decision made by a heading line: the lower-cased line
contains one of the fixed detail keywords. -/
def headingRestricts (line : String) : Bool :=
  strIncludes (strToLower line) "詳細" || strIncludes (strToLower line) "改善" ||
    strIncludes (strToLower line) "提案" || strIncludes (strToLower line) "具体"

/-- State update of one loop iteration: only a heading line assigns the
`inRestrictedSection` flag. -/
def nextFlag (b : Bool) (line : String) : Bool :=
  if strStartsWith line "#" then headingRestricts line else b

/-- Output lines of one loop iteration, as a function of the current flag
and the line alone. -/
def emitLine (b : Bool) (line : String) : List String :=
  if strStartsWith line "#" then [line]
  else if scoreLine line then [line]
  else if b = true ∧ jsTrim line ≠ "" then
    (if strStartsWith line "- " || strStartsWith line "* " then [listMask line]
     else [maskPlaceholder])
  else if b = false then [line]
  else []

/-- The filtering loop of `filterDiagnosisForAnonymous`, transcribed from the
source: headings pass through and set the flag; score lines pass through;
restricted non-blank lines are masked (list items keep a 20-character head);
unrestricted lines pass through; restricted blank lines are dropped. -/
def filterLoop : Bool → List String → List String
  | _, [] => []
  | b, line :: rest =>
    if strStartsWith line "#" then
      line :: filterLoop (headingRestricts line) rest
    else if scoreLine line then
      line :: filterLoop b rest
    else if b = true ∧ jsTrim line ≠ "" then
      (if strStartsWith line "- " || strStartsWith line "* " then listMask line
       else maskPlaceholder) :: filterLoop b rest
    else if b = false then
      line :: filterLoop b rest
    else
      filterLoop b rest

/-- Redaction filter for anonymous callers (src/lib/auth.ts,
`filterDiagnosisForAnonymous`): split into lines, run the loop starting
unrestricted, rejoin with newlines. -/
def filterDiagnosisForAnonymous (fullResult : String) : String :=
  joinNl (filterLoop false (splitNl fullResult))

/-- Each input line paired with the value of the restricted flag at the
moment it is processed, for stating where masks may occur. -/
def flagTrace : Bool → List String → List (String × Bool)
  | _, [] => []
  | b, line :: rest => (line, b) :: flagTrace (nextFlag b line) rest

/-! ### Structural lemmas about the filter loop -/

theorem filterLoop_cons (b : Bool) (line : String) (rest : List String) :
    filterLoop b (line :: rest) =
      emitLine b line ++ filterLoop (nextFlag b line) rest := by
  by_cases h1 : strStartsWith line "#" = true
  · simp [filterLoop, emitLine, nextFlag, h1]
  · by_cases h2 : scoreLine line = true
    · simp [filterLoop, emitLine, nextFlag, h1, h2]
    · by_cases h3 : b = true ∧ jsTrim line ≠ ""
      · by_cases h4 : (strStartsWith line "- " || strStartsWith line "* ") = true
        · simp [filterLoop, emitLine, nextFlag, h1, h2, h3, h4]
        · simp [filterLoop, emitLine, nextFlag, h1, h2, h3, h4]
      · by_cases h5 : b = false
        · simp [filterLoop, emitLine, nextFlag, h1, h2, h3, h5]
        · have hb : b = true := by revert h5; cases b <;> simp
          have ht : jsTrim line = "" := by
            by_contra hc
            exact h3 ⟨hb, hc⟩
          simp [filterLoop, emitLine, nextFlag, h1, h2, h3, h5, hb, ht]

theorem emitLine_mem (b : Bool) (line out : String)
    (h : out ∈ emitLine b line) :
    (out = line ∧ (strStartsWith line "#" = true ∨ scoreLine line = true ∨ b = false)) ∨
    (out = maskPlaceholder ∧ b = true) ∨
    (out = listMask line ∧ b = true) := by
  unfold emitLine at h
  by_cases h1 : strStartsWith line "#" = true
  · simp [h1] at h
    exact Or.inl ⟨h, Or.inl h1⟩
  · by_cases h2 : scoreLine line = true
    · simp [h1, h2] at h
      exact Or.inl ⟨h, Or.inr (Or.inl h2)⟩
    · by_cases h3 : b = true ∧ jsTrim line ≠ ""
      · by_cases h4 : (strStartsWith line "- " || strStartsWith line "* ") = true
        · simp [h1, h2, h3, h4] at h
          exact Or.inr (Or.inr ⟨h, h3.1⟩)
        · simp [h1, h2, h3, h4] at h
          exact Or.inr (Or.inl ⟨h, h3.1⟩)
      · by_cases h5 : b = false
        · simp [h1, h2, h3, h5] at h
          exact Or.inl ⟨h, Or.inr (Or.inr h5)⟩
        · have hb : b = true := by revert h5; cases b <;> simp
          have ht : jsTrim line = "" := by
            by_contra hc
            exact h3 ⟨hb, hc⟩
          simp [h1, h2, h3, h5, ht] at h

theorem filterLoop_mem (lines : List String) :
    ∀ (b : Bool) (out : String), out ∈ filterLoop b lines →
      ∃ p ∈ flagTrace b lines,
        (out = p.1 ∧
          (strStartsWith p.1 "#" = true ∨ scoreLine p.1 = true ∨ p.2 = false)) ∨
        (out = maskPlaceholder ∧ p.2 = true) ∨
        (out = listMask p.1 ∧ p.2 = true) := by
  induction lines with
  | nil =>
    intro b out h
    simp [filterLoop] at h
  | cons line rest ih =>
    intro b out h
    rw [filterLoop_cons] at h
    rcases List.mem_append.mp h with hl | hr
    · refine ⟨(line, b), ?_, ?_⟩
      · simp [flagTrace]
      · exact emitLine_mem b line out hl
    · obtain ⟨p, hp, hprop⟩ := ih (nextFlag b line) out hr
      exact ⟨p, by simp [flagTrace, hp], hprop⟩

/-! ## URL model and validator (src/lib/scraper.ts)

`new URL(...)` is a platform builtin; `parseUrl` is a simplified model of it
adequate for this code base: it splits `scheme://host…`, lower-cases scheme
and host, and stops the hostname at the first `/`, `?`, `#` or `:`.  URL
normalisation beyond that (path canonicalisation, ports) is not modelled,
and no theorem below depends on it. -/

/-- Characters allowed in a URL scheme for the model parser. -/
def isSchemeChar (c : Char) : Bool :=
  isAlphaCh c || isDigitCh c || c = '+' || c = '-' || c = '.'

/-- Find the first occurrence of `pat`; return the text before it and the
text after it. -/
def findSplitL (pat : List Char) : List Char → Option (List Char × List Char)
  | [] => if pat = [] then some ([], []) else none
  | c :: rest =>
    if pat.isPrefixOf (c :: rest) then some ([], (c :: rest).drop pat.length)
    else
      match findSplitL pat rest with
      | some (a, b) => some (c :: a, b)
      | none => none

/-- Model of the parsed `URL` object: the fields read by `validateUrl`. -/
structure UrlObj where
  protocol : String
  hostname : String
  tail : String
deriving DecidableEq

/-- Simplified model of `new URL(s)`: returns `none` exactly when the
constructor would throw on the inputs considered here. -/
def parseUrl (s : String) : Option UrlObj :=
  match findSplitL "://".data s.data with
  | none => none
  | some (sch, rest) =>
    if sch = [] then none
    else if ¬ sch.all isSchemeChar then none
    else
      let host := rest.takeWhile fun c => ¬ (c = '/' || c = '?' || c = '#' || c = ':')
      if host = [] then none
      else some ⟨⟨sch.map charLower⟩ ++ ":", ⟨host.map charLower⟩, ⟨rest.drop host.length⟩⟩

/-! The regex
`/^https?:\/\/([\da-z.-]+)\.([a-z.]{2,6})([\/\w .-]*)*\/?$/i`
(`URL_VALIDATION_PATTERN`).  After lower-casing (the `i` flag), a string
matches iff it is `http://` or `https://` followed by
`A ++ "." ++ B ++ C` where `A` is non-empty over `[0-9a-z.-]`, `B` has
length 2 to 6 over `[a-z.]`, and `C` is over `[/a-z0-9_ .-]` (the trailing
`\/?` and the nested star are absorbed by `C`). -/

/-- Character class `[\da-z.-]` of the domain part (on lower-cased input). -/
def classDomainChar (c : Char) : Bool :=
  isDigitCh c || isLowerAlpha c || c = '.' || c = '-'

/-- Character class `[a-z.]` of the TLD part. -/
def classTldChar (c : Char) : Bool := isLowerAlpha c || c = '.'

/-- Character class `[\/\w .-]` of the path part (on lower-cased input). -/
def classPathChar (c : Char) : Bool :=
  c = '/' || isDigitCh c || isLowerAlpha c || c = '_' || c = ' ' || c = '.' || c = '-'

/-- Can `tail` be split as a 2–6 character TLD followed by path characters? -/
def tldSplitOk (tail : List Char) : Bool :=
  [2, 3, 4, 5, 6].any fun j =>
    decide (j ≤ tail.length) && (tail.take j).all classTldChar &&
      (tail.drop j).all classPathChar

/-- Scan for the dot that separates the domain from the TLD, trying every
dot position; `accA` holds the reversed domain candidate read so far. -/
def patScan : List Char → List Char → Bool
  | _, [] => false
  | accA, c :: tail =>
    if c = '.' then
      (decide (accA ≠ []) && accA.all classDomainChar && tldSplitOk tail) ||
        patScan (c :: accA) tail
    else patScan (c :: accA) tail

/-- Executable model of `URL_VALIDATION_PATTERN.test(url)`. -/
def urlValidationPattern (url : String) : Bool :=
  let l := url.data.map charLower
  if "https://".data.isPrefixOf l then patScan [] (l.drop 8)
  else if "http://".data.isPrefixOf l then patScan [] (l.drop 7)
  else false

/-- Model of the `/^172\.(1[6-9]|2[0-9]|3[0-1])\./` pattern. -/
def matches172 : List Char → Bool
  | '1' :: '7' :: '2' :: '.' :: d1 :: d2 :: '.' :: _ =>
    (d1 = '1' && ('6' ≤ d2 && d2 ≤ '9')) || (d1 = '2' && isDigitCh d2) ||
      (d1 = '3' && (d2 = '0' || d2 = '1'))
  | _ => false

/-- Model of `PRIVATE_IP_PATTERNS.some(p => p.test(hostname))`. -/
def privateIpMatch (h : String) : Bool :=
  strStartsWith h "10." || matches172 h.data || strStartsWith h "192.168." ||
    strStartsWith h "127." || strStartsWith h "169.254." || h = "::1" ||
    strStartsWith h "fc00:" || strStartsWith h "fe80:"

/-- Error message of the unparsable-URL rejection. -/
def msgMalformedUrl : String := "無効なURL形式です。正しいURLを入力してください。"

/-- Error message of the unsupported-scheme rejection. -/
def msgBadScheme : String := "HTTPまたはHTTPSプロトコルのURLのみサポートしています。"

/-- Error message of the domain-shape (regex) rejection. -/
def msgBadDomain : String := "有効なドメイン名のURLを入力してください。"

/-- Error message of the private-IP rejection. -/
def msgPrivateIp : String := "プライベートIPアドレスへのアクセスは許可されていません。"

/-- Error message of the localhost rejection. -/
def msgLocalhost : String := "localhostへのアクセスは許可されていません。"

/-- URL security validation (src/lib/scraper.ts `validateUrl`): parse, check
the scheme, check the shape regex, then the private-IP patterns, then the
localhost names.  Thrown `Error`s are modelled by their message strings. -/
def validateUrl (url : String) : Except String UrlObj :=
  match parseUrl url with
  | none => Except.error msgMalformedUrl
  | some u =>
    if ¬ (u.protocol = "http:" ∨ u.protocol = "https:") then Except.error msgBadScheme
    else if ¬ urlValidationPattern url = true then Except.error msgBadDomain
    else if privateIpMatch u.hostname = true then Except.error msgPrivateIp
    else if u.hostname = "localhost" ∨ strEndsWith u.hostname ".localhost" = true then
      Except.error msgLocalhost
    else Except.ok u

/-! ## Content extraction (src/lib/scraper.ts `extractMetadata`)

The source extracts metadata with regular expressions over the raw HTML.
Each regex is transcribed as an explicit scanner over the character list.
Scanners that restart after a failed candidate use a fuel argument (one
unit per character position) so that every definition is structural and
kernel-evaluable; the fuel is always initialised to more than the input
length, so it never runs out. -/

/-- Case-insensitive character comparison (the `i` regex flag). -/
def lcEq (a b : Char) : Bool := charLower a = charLower b

/-- Case-insensitive literal prefix test. -/
def lcPrefix : List Char → List Char → Bool
  | [], _ => true
  | _ :: _, [] => false
  | p :: ps, c :: cs => lcEq p c && lcPrefix ps cs

/-- Find the first case-insensitive occurrence of `pat`; return the text
before it and the text after it. -/
def findCI (pat : List Char) : List Char → Option (List Char × List Char)
  | [] => if pat = [] then some ([], []) else none
  | c :: rest =>
    if lcPrefix pat (c :: rest) then some ([], (c :: rest).drop pat.length)
    else
      match findCI pat rest with
      | some (a, b) => some (c :: a, b)
      | none => none

/-- One candidate for `/<title[^>]*>([^<]*)<\/title>/i` starting at the head
of `s`: attributes up to `>`, a capture up to `<`, then the closing tag. -/
def titleCaptureAt (s : List Char) : Option (List Char) :=
  if lcPrefix "<title".data s then
    let after := s.drop 6
    let attrs := after.takeWhile fun c => ¬ c = '>'
    match after.drop attrs.length with
    | '>' :: r2 =>
      let cap := r2.takeWhile fun c => ¬ c = '<'
      if lcPrefix "</title>".data (r2.drop cap.length) then some cap else none
    | _ => none
  else none

/-- Scan for the first successful title match, restarting one character
after a failed candidate, as regex searching does. -/
def findTitleAux : Nat → List Char → Option (List Char)
  | 0, _ => none
  | _ + 1, [] => none
  | f + 1, c :: rest =>
    match titleCaptureAt (c :: rest) with
    | some cap => some cap
    | none => findTitleAux f rest

/-- Extracted `<title>` text: first match of the title regex, trimmed;
empty when absent. -/
def extractTitle (html : List Char) : String :=
  match findTitleAux (html.length + 1) html with
  | some cap => jsTrim ⟨cap⟩
  | none => ""

/-- Quote characters accepted by the description regex (`["']`). -/
def isQuoteCh (c : Char) : Bool := c = '"' || c = '\''

/-- One candidate for the `<meta name="description" content="…">` regex
starting at the head: the tag body up to `>` must contain, in order,
`name=` quote `description` quote and then `content=` quote capture quote.
The leftmost occurrences are taken (a simplification of the regex engine's
greedy backtracking that is equivalent on single-`name`/`content` tags). -/
def metaDescriptionAt (s : List Char) : Option (List Char) :=
  if lcPrefix "<meta".data s then
    let after := s.drop 5
    let body := after.takeWhile fun c => ¬ c = '>'
    match after.drop body.length with
    | '>' :: _ =>
      match findCI "name=".data body with
      | some (_, r1) =>
        match r1 with
        | q1 :: r2 =>
          if isQuoteCh q1 && lcPrefix "description".data r2 then
            match r2.drop 11 with
            | q2 :: r3 =>
              if isQuoteCh q2 then
                match findCI "content=".data r3 with
                | some (_, r4) =>
                  match r4 with
                  | q3 :: r5 =>
                    if isQuoteCh q3 then
                      let cap := r5.takeWhile fun c => ¬ isQuoteCh c
                      match r5.drop cap.length with
                      | q4 :: _ => if isQuoteCh q4 then some cap else none
                      | [] => none
                    else none
                  | [] => none
                | none => none
              else none
            | [] => none
          else none
        | [] => none
      | none => none
    | _ => none
  else none

/-- Scan for the first successful meta-description match. -/
def findDescriptionAux : Nat → List Char → Option (List Char)
  | 0, _ => none
  | _ + 1, [] => none
  | f + 1, c :: rest =>
    match metaDescriptionAt (c :: rest) with
    | some cap => some cap
    | none => findDescriptionAux f rest

/-- Extracted meta description: first match, trimmed; empty when absent. -/
def extractDescription (html : List Char) : String :=
  match findDescriptionAux (html.length + 1) html with
  | some cap => jsTrim ⟨cap⟩
  | none => ""

/-- Digit `1`–`6` test for heading levels. -/
def isHeadingDigit (c : Char) : Bool := '1' ≤ c && c ≤ '6'

/-- One candidate for `/<h[1-6][^>]*>([^<]*)<\/h[1-6]>/i` at the head:
returns the full matched text and the remainder after the match. -/
def headingAt (s : List Char) : Option (List Char × List Char) :=
  match s with
  | '<' :: c1 :: d :: rest =>
    if lcEq c1 'h' && isHeadingDigit d then
      let attrs := rest.takeWhile fun c => ¬ c = '>'
      match rest.drop attrs.length with
      | '>' :: r2 =>
        let cap := r2.takeWhile fun c => ¬ c = '<'
        match r2.drop cap.length with
        | '<' :: '/' :: c2 :: d2 :: '>' :: r3 =>
          if lcEq c2 'h' && isHeadingDigit d2 then
            some ('<' :: c1 :: d :: attrs ++ '>' :: cap ++
              '<' :: '/' :: c2 :: d2 :: '>' :: [], r3)
          else none
        | _ => none
      | _ => none
    else none
  | _ => none

/-- Global scan of the heading regex: collect non-overlapping matches left to
right, resuming after each match, advancing one character otherwise. -/
def headingMatchesAux : Nat → List Char → List (List Char)
  | 0, _ => []
  | _ + 1, [] => []
  | f + 1, c :: rest =>
    match headingAt (c :: rest) with
    | some (m, r) => m :: headingMatchesAux f r
    | none => headingMatchesAux f rest

/-- Replace every match of `/<[^>]+>/` by `rep` (used with a space for the
body text and with nothing for heading cleanup). -/
def replaceTags (rep : List Char) : Nat → List Char → List Char
  | 0, s => s
  | _ + 1, [] => []
  | f + 1, '<' :: rest =>
    let inner := rest.takeWhile fun c => ¬ c = '>'
    match rest.drop inner.length with
    | '>' :: r2 =>
      if inner = [] then '<' :: replaceTags rep f rest
      else rep ++ replaceTags rep f r2
    | _ => '<' :: replaceTags rep f rest
  | f + 1, c :: rest => c :: replaceTags rep f rest

/-- Strip inner tags with empty replacement, as the heading cleanup does. -/
def stripTagsEmpty (s : List Char) : List Char := replaceTags [] (s.length + 1) s

/-- Extracted headings: every heading match, tags stripped, trimmed, empty
results discarded. -/
def extractHeadings (html : List Char) : List String :=
  ((headingMatchesAux (html.length + 1) html).map fun m =>
      jsTrim ⟨stripTagsEmpty m⟩).filter fun t => t ≠ ""

/-- Remove every block `open[^>]*>…close` non-greedily (the script and style
removal regexes); a candidate without its closing tag is left in place and
scanning resumes at the next character, as the regex engine does. -/
def removeBlocks (tag close : List Char) : Nat → List Char → List Char
  | 0, s => s
  | _ + 1, [] => []
  | f + 1, c :: rest =>
    if lcPrefix tag (c :: rest) then
      let after := (c :: rest).drop tag.length
      let attrs := after.takeWhile fun x => ¬ x = '>'
      match after.drop attrs.length with
      | '>' :: r2 =>
        match findCI close r2 with
        | some (_, r3) => removeBlocks tag close f r3
        | none => c :: removeBlocks tag close f rest
      | _ => c :: removeBlocks tag close f rest
    else c :: removeBlocks tag close f rest

/-- Entity characters of `/&[a-zA-Z0-9#]+;/`. -/
def isEntityChar (c : Char) : Bool :=
  isDigitCh c || isLowerAlpha c || ('A' ≤ c && c ≤ 'Z') || c = '#'

/-- Replace every HTML entity by a space. -/
def replaceEntities : Nat → List Char → List Char
  | 0, s => s
  | _ + 1, [] => []
  | f + 1, '&' :: rest =>
    let ent := rest.takeWhile isEntityChar
    match rest.drop ent.length with
    | ';' :: r2 =>
      if ent = [] then '&' :: replaceEntities f rest
      else ' ' :: replaceEntities f r2
    | _ => '&' :: replaceEntities f rest
  | f + 1, c :: rest => c :: replaceEntities f rest

/-- Collapse a run of spaces to its first space (helper for `\s+` → space). -/
def dedupeSp (l : List Char) : List Char :=
  l.foldr
    (fun c acc =>
      if c = ' ' then
        match acc with
        | ' ' :: _ => acc
        | _ => ' ' :: acc
      else c :: acc)
    []

/-- Model of `replace(/\s+/g, ' ')`: map every whitespace character to a
space, then collapse runs. -/
def collapseWs (s : List Char) : List Char :=
  dedupeSp (s.map fun c => if isJsSpace c then ' ' else c)

/-- Body text derivation: remove script and style blocks, replace remaining
tags by spaces, replace entities by spaces, collapse whitespace, trim. -/
def extractBodyText (html : List Char) : String :=
  let noScript := removeBlocks "<script".data "</script>".data (html.length + 1) html
  let noStyle := removeBlocks "<style".data "</style>".data (noScript.length + 1) noScript
  let noTags := replaceTags [' '] (noStyle.length + 1) noStyle
  let noEnt := replaceEntities (noTags.length + 1) noTags
  jsTrim ⟨collapseWs noEnt⟩

/-- The metadata record produced by `extractMetadata`. -/
structure Metadata where
  title : String
  description : String
  headings : List String
  bodyText : String
deriving DecidableEq

/-- Metadata extraction (src/lib/scraper.ts `extractMetadata`).  The
source's catch-all degradation branch is unreachable in this model because
no step can throw. -/
def extractMetadata (html : String) : Metadata :=
  ⟨extractTitle html.data, extractDescription html.data,
    extractHeadings html.data, extractBodyText html.data⟩

/-! ## Scrape assembly and fetch (src/lib/scraper.ts `scrapeWebpage`) -/

/-- Join strings with a separator (model of `Array.prototype.join`). -/
def joinWith (sep : String) : List String → String
  | [] => ""
  | [s] => s
  | s :: rest => s ++ sep ++ joinWith sep rest

/-- Decimal digit character. -/
def natDigitChar (n : Nat) : Char := Char.ofNat (48 + n % 10)

/-- Decimal representation of a natural number (fuel-based helper). -/
def natToStrAux : Nat → Nat → List Char
  | 0, _ => []
  | f + 1, n => if n < 10 then [natDigitChar n] else natToStrAux f (n / 10) ++ [natDigitChar (n % 10)]

/-- Decimal representation of a natural number (model of interpolation). -/
def natToStr (n : Nat) : String := ⟨natToStrAux (n + 1) n⟩

/-- Analysis content assembled from the metadata: the labelled sections,
empty ones removed, joined with blank lines. -/
def buildAnalysisContent (m : Metadata) : String :=
  joinWith "\n\n"
    (([if m.title ≠ "" then "タイトル: " ++ m.title else "",
       if m.description ≠ "" then "説明: " ++ m.description else "",
       if m.headings.length > 0 then "見出し: " ++ joinWith ", " m.headings else "",
       if m.bodyText ≠ "" then "本文: " ++ m.bodyText else ""] :
      List String).filter fun s => s ≠ "")

/-- The extractor's content cap (`const maxLength = 10000`). -/
def scrapeMaxLength : Nat := 10000

/-- Truncation notice appended by the extractor when the cap is exceeded. -/
def scrapeTruncNotice : String := "\n\n[コンテンツが長すぎるため、一部のみを抽出しています]"

/-- Error message when no content could be extracted. -/
def msgNoContent : String := "ページからコンテンツを抽出できませんでした。JavaScriptで生成されるコンテンツの可能性があります。"

/-- Final content step of `scrapeWebpage`: truncate above the cap with the
notice appended; otherwise fail when the content is blank; otherwise return
it unchanged.  The truncation check precedes the blank check, as in the
source. -/
def finalizeAnalysisContent (c : String) : Except String String :=
  if c.length > scrapeMaxLength then
    Except.ok (substringTo c scrapeMaxLength ++ scrapeTruncNotice)
  else if jsTrim c = "" then Except.error msgNoContent
  else Except.ok c

/-- Outcome of the platform `fetch` call on the target URL. -/
inductive FetchOutcome where
  | success (status : Nat) (statusText : String) (contentType : String) (body : String)
  | timeout
  | netError (msg : String)
deriving DecidableEq

/-- Value thrown inside the fetch `try` block: the abort-timeout error or an
`Error` carrying a message. -/
inductive FetchThrow where
  | timeoutErr
  | err (msg : String)
deriving DecidableEq

/-- Message of the HTTP-status rejection. -/
def httpErrorMsg (status : Nat) (statusText : String) : String :=
  "HTTPエラー: " ++ natToStr status ++ " " ++ statusText ++ "。このサイトはアクセスできません。"

/-- Message of the content-type rejection. -/
def badContentTypeMsg (ct : String) : String :=
  "HTMLでないコンテンツタイプです: " ++ ct ++ "。HTMLページのURLを入力してください。"

/-- Message of the too-short body rejection. -/
def msgTooShort : String := "取得したコンテンツが短すぎます。有効なHTMLページではない可能性があります。"

/-- Message of the timeout rejection. -/
def msgTimeout : String := "ページの読み込みがタイムアウトしました。サイトの応答が遅いか、アクセスできない可能性があります。"

/-- Message of the network-error rejection. -/
def msgNetwork : String := "ネットワークエラーが発生しました。URLが正しいか、サイトがアクセス可能か確認してください。"

/-- The fetch `try` block: require `response.ok` (status 200–299), a
`text/html` content type, and at least 100 characters of body. -/
def fetchHtml (fo : FetchOutcome) : Except FetchThrow String :=
  match fo with
  | FetchOutcome.timeout => Except.error FetchThrow.timeoutErr
  | FetchOutcome.netError m => Except.error (FetchThrow.err m)
  | FetchOutcome.success status statusText ct body =>
    if ¬ (200 ≤ status ∧ status ≤ 299) then
      Except.error (FetchThrow.err (httpErrorMsg status statusText))
    else if ¬ strIncludes ct "text/html" = true then
      Except.error (FetchThrow.err (badContentTypeMsg ct))
    else if body.length < 100 then Except.error (FetchThrow.err msgTooShort)
    else Except.ok body

/-- The fetch `catch` block: a timeout becomes the timeout message; an error
whose message mentions `fetch` becomes the network message; anything else is
rethrown unchanged. -/
def fetchCatchMsg : FetchThrow → String
  | FetchThrow.timeoutErr => msgTimeout
  | FetchThrow.err m => if strIncludes m "fetch" then msgNetwork else m

/-- Web-page scrape (src/lib/scraper.ts `scrapeWebpage`): validate the URL,
fetch, extract, assemble and bound the content.  The boolean reports
whether the network fetch of the target was attempted (it is skipped
exactly when validation throws first). -/
def scrapeWebpage (fo : FetchOutcome) (url : String) : Except String String × Bool :=
  match validateUrl url with
  | Except.error e => (Except.error e, false)
  | Except.ok _ =>
    match fetchHtml fo with
    | Except.error t => (Except.error (fetchCatchMsg t), true)
    | Except.ok html =>
      (finalizeAnalysisContent (buildAnalysisContent (extractMetadata html)), true)

/-! ## Analysis client truncation (src/lib/anthropic.ts
`diagnoseWebsiteContent`) -/

/-- The analysis client's input cap (`const maxContentLength = 15000`). -/
def maxContentLength : Nat := 15000

/-- Truncation notice appended by the analysis client. -/
def anthropicTruncNotice : String :=
  "\n\n[コンテンツが長すぎるため、最初の15,000文字を分析対象としています]"

/-- Input truncation step of `diagnoseWebsiteContent`: contents above the
cap are cut to it and the notice is appended. -/
def truncateForDiagnosis (content : String) : String :=
  if content.length > maxContentLength then
    substringTo content maxContentLength ++ anthropicTruncNotice
  else content

/-! ## Cache gateway (src/lib/supabase.ts) -/

/-- A row of the `diagnosis_cache` table; `created_at` is a timestamp in
milliseconds. -/
structure CacheRow where
  url : String
  result : String
  created_at : Int
deriving DecidableEq

/-- Twenty-four hours in milliseconds (the `setHours(-24)` computation). -/
def dayMs : Int := 86400000

/-- The query's row filter: same URL, created within the last 24 hours
(`eq('url', url)` and `gte('created_at', twentyFourHoursAgo)`). -/
def freshRows (rows : List CacheRow) (url : String) (now : Int) : List CacheRow :=
  rows.filter fun r => r.url = url ∧ now - dayMs ≤ r.created_at

/-- The query's `order('created_at', descending).limit(1).single()`: the
most recent row, or none (the `PGRST116` error) when no row matches. -/
def pickLatest (rows : List CacheRow) : Option CacheRow :=
  rows.foldl
    (fun acc r =>
      match acc with
      | none => some r
      | some b => if b.created_at < r.created_at then some r else some b)
    none

/-- Cache lookup (src/lib/supabase.ts `getCachedDiagnosis`): every store
error and every exception is caught and becomes `none`; an existing row
with an empty `result` also becomes `none` (`data?.result || null`). -/
def getCachedDiagnosis (storeFails : Bool) (rows : List CacheRow) (url : String)
    (now : Int) : Option String :=
  if storeFails then none
  else
    match pickLatest (freshRows rows url now) with
    | none => none
    | some r => if r.result = "" then none else some r.result

/-- Cache store (src/lib/supabase.ts `saveDiagnosisCache`): the insert's
outcome is logged and swallowed, so the function never propagates failure. -/
def saveDiagnosisCache (_outcome : Except String Unit) : Unit := ()

/-! ## The `POST /api/diagnose` orchestrator (app/api/diagnose/route.ts)

Collaborator behaviour is supplied through an environment record; the
handler returns the HTTP response together with the list of external calls
it performed, in order. -/

/-- External calls the handler can make. -/
inductive Call where
  | cacheGet (url : String)
  | fetchTarget (url : String)
  | fallbackFetch (url : String)
  | analyze (content : String)
  | cachePut (url result : String)
  | history (user url result : String)
deriving DecidableEq

/-- Collaborator behaviour for one request. -/
structure DiagnoseEnv where
  authUser : Option String
  storeGetFails : Bool
  cacheRows : List CacheRow
  now : Int
  fetchOutcome : FetchOutcome
  analyzeOutcome : Except String String
  putOutcome : Except String Unit
  historyOutcome : Except String Unit

/-- The handler's response: a success body or an error body with status. -/
inductive ApiResult where
  | ok (result : String) (cached : Bool) (isAuthenticated hasFullAccess : Bool)
  | err (status : Nat) (error : String) (code : Option String)
deriving DecidableEq

/-- History-store attempt: performed only for authenticated callers, its
failure swallowed; contributes only a trace entry. -/
def historyTrace (authUser : Option String) (url result : String) : List Call :=
  match authUser with
  | some uid => [Call.history uid url result]
  | none => []

/-- The `POST /api/diagnose` handler: parse and trim the URL, check the
cache (non-fatal), scrape (422 on failure), analyse (503 on failure),
store to cache (non-fatal), store history (non-fatal), redact for
anonymous callers, respond.  `urlField` is the request body's `url`
field (`none` for a missing or non-string field). -/
def POST (env : DiagnoseEnv) (urlField : Option String) : ApiResult × List Call :=
  match urlField with
  | none => (ApiResult.err 400 "URLが指定されていません。" none, [])
  | some url =>
    let trimmedUrl := jsTrim url
    if trimmedUrl = "" then
      (ApiResult.err 400 "有効なURLを入力してください。" none, [])
    else
      let isAuthenticated := env.authUser.isSome
      let getTrace := [Call.cacheGet trimmedUrl]
      match getCachedDiagnosis env.storeGetFails env.cacheRows trimmedUrl env.now with
      | some cachedResult =>
        let finalCached :=
          if isAuthenticated then cachedResult
          else filterDiagnosisForAnonymous cachedResult
        (ApiResult.ok finalCached true isAuthenticated isAuthenticated,
          getTrace ++ historyTrace env.authUser trimmedUrl cachedResult)
      | none =>
        let sw := scrapeWebpage env.fetchOutcome trimmedUrl
        let fetchTrace := if sw.snd then [Call.fetchTarget trimmedUrl] else []
        match sw.fst with
        | Except.error e =>
          (ApiResult.err 422 e (some "SCRAPE_ERROR"), getTrace ++ fetchTrace)
        | Except.ok scrapedContent =>
          match env.analyzeOutcome with
          | Except.error msg =>
            (ApiResult.err 503 msg (some "AI_ERROR"),
              getTrace ++ fetchTrace ++ [Call.analyze scrapedContent])
          | Except.ok diagnosis =>
            let _ := saveDiagnosisCache env.putOutcome
            let finalResult :=
              if isAuthenticated then diagnosis
              else filterDiagnosisForAnonymous diagnosis
            (ApiResult.ok finalResult false isAuthenticated isAuthenticated,
              getTrace ++ fetchTrace ++
                [Call.analyze scrapedContent, Call.cachePut trimmedUrl diagnosis] ++
                historyTrace env.authUser trimmedUrl diagnosis)

/-! ## General lemmas about the string representation -/

theorem str_append_data (s t : String) : (s ++ t).data = s.data ++ t.data := by
  cases s
  cases t
  rfl

theorem str_length_data (s : String) : s.length = s.data.length := by
  cases s
  rfl

/-! ## Claim theorems -/

/-- C3: for every report, every line of the unauthorized-path redaction
output is either the corresponding input line verbatim — and then that line
is a heading line, a score line, or was processed outside a restricted
section — or one of the two masking forms (the fixed placeholder, or the
20-character list-item mask), so no restricted prose line survives
verbatim. -/
theorem redaction_masking_property (report out : String)
    (h : out ∈ filterLoop false (splitNl report)) :
    filterDiagnosisForAnonymous report = joinNl (filterLoop false (splitNl report)) ∧
    ∃ p ∈ flagTrace false (splitNl report),
      (out = p.1 ∧
        (strStartsWith p.1 "#" = true ∨ scoreLine p.1 = true ∨ p.2 = false)) ∨
      (out = maskPlaceholder ∧ p.2 = true) ∨
      (out = listMask p.1 ∧ p.2 = true) :=
  ⟨rfl, filterLoop_mem (splitNl report) false out h⟩

theorem redaction_masking_property_witness :
    maskPlaceholder ∈ filterLoop false (splitNl "# 詳細\n内容です") ∧
    (filterDiagnosisForAnonymous "# 詳細\n内容です" =
        joinNl (filterLoop false (splitNl "# 詳細\n内容です")) ∧
      ∃ p ∈ flagTrace false (splitNl "# 詳細\n内容です"),
        (maskPlaceholder = p.1 ∧
          (strStartsWith p.1 "#" = true ∨ scoreLine p.1 = true ∨ p.2 = false)) ∨
        (maskPlaceholder = maskPlaceholder ∧ p.2 = true) ∨
        (maskPlaceholder = listMask p.1 ∧ p.2 = true)) :=
  ⟨by decide, redaction_masking_property "# 詳細\n内容です" maskPlaceholder (by decide)⟩

/-- C8: the redaction filter is a single-pass line transform whose only
state is the boolean restricted flag: the whole filter is the loop started
at `false`, each step factors into per-line output plus a state update, a
non-heading line leaves the flag unchanged, and a heading line sets it to a
value independent of the previous state. -/
theorem redaction_single_flag_state :
    (∀ report, filterDiagnosisForAnonymous report =
      joinNl (filterLoop false (splitNl report))) ∧
    (∀ (b : Bool) (line : String) (rest : List String),
      filterLoop b (line :: rest) = emitLine b line ++ filterLoop (nextFlag b line) rest) ∧
    (∀ (b : Bool) (line : String), strStartsWith line "#" = false → nextFlag b line = b) ∧
    (∀ (b b' : Bool) (line : String), strStartsWith line "#" = true →
      nextFlag b line = nextFlag b' line) := by
  refine ⟨fun _ => rfl, filterLoop_cons, ?_, ?_⟩
  · intro b line h
    simp [nextFlag, h]
  · intro b b' line h
    simp [nextFlag, h]

theorem redaction_single_flag_state_witness :
    strStartsWith "内容です" "#" = false ∧ nextFlag true "内容です" = true :=
  ⟨by decide, redaction_single_flag_state.2.2.1 true "内容です" (by decide)⟩

/-- C10: inside a restricted section a blank (whitespace-only) line emits
nothing, outside a restricted section a non-heading non-score line (blank
included) passes through, and consequently the redacted output can have
strictly fewer lines than the input report. -/
theorem restricted_blank_lines_dropped :
    (∀ line : String, strStartsWith line "#" = false → scoreLine line = false →
      jsTrim line = "" → emitLine true line = []) ∧
    (∀ line : String, strStartsWith line "#" = false → scoreLine line = false →
      emitLine false line = [line]) ∧
    (filterLoop false (splitNl "# 詳細\n\n内容です")).length <
      (splitNl "# 詳細\n\n内容です").length := by
  refine ⟨?_, ?_, by decide⟩
  · intro line h1 h2 h3
    simp [emitLine, h1, h2, h3]
  · intro line h1 h2
    simp [emitLine, h1, h2]

theorem restricted_blank_lines_dropped_witness :
    strStartsWith "  " "#" = false ∧ scoreLine "  " = false ∧ jsTrim "  " = "" ∧
    emitLine true "  " = [] :=
  ⟨by decide, by decide, by decide,
    restricted_blank_lines_dropped.1 "  " (by decide) (by decide) (by decide)⟩

/-- Content used for exercising the truncation law: one character more than
the extractor's cap. -/
def bigContent : String := ⟨List.replicate 10001 'a'⟩

/-- C7: whenever the assembled extraction summary exceeds the cap, the
extractor's final step returns exactly the first `scrapeMaxLength`
characters of the summary — a prefix of it — followed by the fixed
truncation notice, so the output length is exactly the cap plus the notice
length. -/
theorem extractor_truncation_law (c : String) (h : scrapeMaxLength < c.length) :
    finalizeAnalysisContent c =
      Except.ok (substringTo c scrapeMaxLength ++ scrapeTruncNotice) ∧
    (substringTo c scrapeMaxLength ++ scrapeTruncNotice).length =
      scrapeMaxLength + scrapeTruncNotice.length ∧
    (substringTo c scrapeMaxLength).data <+: c.data := by
  refine ⟨?_, ?_, ?_⟩
  · simp [finalizeAnalysisContent, h]
  · rw [str_length_data, str_append_data, List.length_append]
    have h1 : (substringTo c scrapeMaxLength).data = c.data.take scrapeMaxLength := rfl
    rw [h1, List.length_take, str_length_data scrapeTruncNotice]
    have h2 : scrapeMaxLength ≤ c.data.length := by
      rw [str_length_data] at h
      exact Nat.le_of_lt h
    rw [Nat.min_eq_left h2]
  · exact List.take_prefix scrapeMaxLength c.data

theorem extractor_truncation_law_witness :
    scrapeMaxLength < bigContent.length ∧
    finalizeAnalysisContent bigContent =
      Except.ok (substringTo bigContent scrapeMaxLength ++ scrapeTruncNotice) := by
  have h : scrapeMaxLength < bigContent.length := by
    rw [str_length_data]
    have hd : bigContent.data = List.replicate 10001 'a' := rfl
    rw [hd, List.length_replicate]
    exact Nat.lt_of_sub_eq_succ rfl
  exact ⟨h, (extractor_truncation_law bigContent h).1⟩

/-- C4 counterexample: the analysis client's input cap (15,000) is not
strictly smaller than the extractor's cap (10,000) — it is larger, refuting
the claimed inequality between the two limits. -/
theorem analysis_cap_not_smaller_cex :
    ¬ maxContentLength < scrapeMaxLength := by decide

/-- C4 (amended): the analysis client truncates its input to the fixed
`maxContentLength` character limit, appending the truncation notice when
the input was cut and leaving shorter input unchanged; that limit is
strictly larger than the extractor's own cap. -/
theorem analysis_truncation_and_cap :
    (∀ c : String, maxContentLength < c.length →
      truncateForDiagnosis c = substringTo c maxContentLength ++ anthropicTruncNotice) ∧
    (∀ c : String, c.length ≤ maxContentLength → truncateForDiagnosis c = c) ∧
    scrapeMaxLength < maxContentLength := by
  refine ⟨?_, ?_, by decide⟩
  · intro c h
    simp [truncateForDiagnosis, h]
  · intro c h
    simp [truncateForDiagnosis, Nat.not_lt.mpr h]

theorem analysis_truncation_and_cap_witness :
    ("abc" : String).length ≤ maxContentLength ∧ truncateForDiagnosis "abc" = "abc" :=
  ⟨by decide, analysis_truncation_and_cap.2.1 "abc" (by decide)⟩

/-- C6 counterexample: `http://example.com/?x=1` parses as an `http` URL
with the public hostname `example.com`, yet `validateUrl` rejects it with
the domain-shape error, because `URL_VALIDATION_PATTERN` has no `?`
character in its path class. -/
theorem public_url_with_query_rejected_cex :
    parseUrl "http://example.com/?x=1" =
      some ⟨"http:", "example.com", "/?x=1"⟩ ∧
    privateIpMatch "example.com" = false ∧
    ¬ (("example.com" : String) = "localhost" ∨
        strEndsWith "example.com" ".localhost" = true) ∧
    validateUrl "http://example.com/?x=1" = Except.error msgBadDomain := by
  refine ⟨by decide, by decide, by decide, by decide⟩

/-- C6 (amended): for every input that parses as an `http`/`https` URL with
a public hostname and that additionally matches `URL_VALIDATION_PATTERN`
(which excludes query strings, ports and all-numeric TLDs), `validateUrl`
accepts and returns the parsed URL object. -/
theorem validateUrl_acceptance_with_pattern (s : String) (u : UrlObj)
    (hp : parseUrl s = some u)
    (hs : u.protocol = "http:" ∨ u.protocol = "https:")
    (hre : urlValidationPattern s = true)
    (hpriv : privateIpMatch u.hostname = false)
    (hlh : ¬ (u.hostname = "localhost" ∨ strEndsWith u.hostname ".localhost" = true)) :
    validateUrl s = Except.ok u := by
  simp [validateUrl, hp, hs, hre, hpriv, hlh]

theorem validateUrl_acceptance_with_pattern_witness :
    urlValidationPattern "https://example.com/page" = true ∧
    validateUrl "https://example.com/page" =
      Except.ok ⟨"https:", "example.com", "/page"⟩ :=
  ⟨by decide,
    validateUrl_acceptance_with_pattern "https://example.com/page"
      ⟨"https:", "example.com", "/page"⟩ (by decide) (by decide) (by decide)
      (by decide) (by decide)⟩

/-- Identifies the hypothetical fallback-fetch-service call. -/
def isFallbackCall : Call → Bool
  | Call.fallbackFetch _ => true
  | _ => false

/-- Identifies the network call fetching the target page. -/
def isFetchCall : Call → Bool
  | Call.fetchTarget _ => true
  | _ => false

/-- Environment of the private-network scenario: empty cache store, no
authentication. -/
def envC1 : DiagnoseEnv :=
  ⟨none, false, [], 0, FetchOutcome.timeout, Except.ok "R", Except.ok (), Except.ok ()⟩

/-- C1 counterexample: at the scenario request `{url:"http://192.168.1.1/"}`
the rejection carried by the response is the generic invalid-domain client
error of `URL_VALIDATION_PATTERN` — which runs before the private-network
check and already rejects dotted-quad hostnames — not the private-network
security rejection. -/
theorem private_ip_url_not_security_kind_cex :
    validateUrl "http://192.168.1.1/" = Except.error msgBadDomain ∧
    msgBadDomain ≠ msgPrivateIp ∧
    (POST envC1 (some "http://192.168.1.1/")).fst =
      ApiResult.err 422 msgBadDomain (some "SCRAPE_ERROR") := by
  refine ⟨by decide, by decide, by decide⟩

/-- C1 (amended): on a cache miss for `http://192.168.1.1/` the endpoint
rejects the request with the 400-class status 422 and performs no network
call to the target; the rejection kind, however, is the invalid-domain
client error rather than the private-network rejection. -/
theorem private_ip_url_rejected_without_fetch (env : DiagnoseEnv)
    (hmiss : getCachedDiagnosis env.storeGetFails env.cacheRows
      "http://192.168.1.1/" env.now = none) :
    (POST env (some "http://192.168.1.1/")).fst =
      ApiResult.err 422 msgBadDomain (some "SCRAPE_ERROR") ∧
    ((POST env (some "http://192.168.1.1/")).snd.all fun c => !isFetchCall c) = true := by
  have htrim : jsTrim "http://192.168.1.1/" = "http://192.168.1.1/" := by decide
  have hval : validateUrl "http://192.168.1.1/" = Except.error msgBadDomain := by decide
  have hsw : scrapeWebpage env.fetchOutcome "http://192.168.1.1/" =
      (Except.error msgBadDomain, false) := by
    simp [scrapeWebpage, hval]
  constructor
  · simp [POST, htrim, hmiss, hsw]
  · simp [POST, htrim, hmiss, hsw, isFetchCall]

theorem private_ip_url_rejected_without_fetch_witness :
    getCachedDiagnosis envC1.storeGetFails envC1.cacheRows
      "http://192.168.1.1/" envC1.now = none ∧
    ((POST envC1 (some "http://192.168.1.1/")).snd.all fun c => !isFetchCall c) = true :=
  ⟨by decide, (private_ip_url_rejected_without_fetch envC1 (by decide)).2⟩

/-- Environment of the fetch-failure scenario: empty cache store, direct
fetch of the target times out. -/
def envC2 : DiagnoseEnv :=
  ⟨none, false, [], 0, FetchOutcome.timeout, Except.ok "R", Except.ok (), Except.ok ()⟩

/-- C2: when the direct fetch of `http://example.com/` times out, the
handler fails the whole request at once with the 422 timeout response, and
its call trace contains no invocation of any fallback fetch service — the
handler has no such call at all, although the repository's own design
documents describe a fallback scraper for exactly this case. -/
theorem fetch_failure_fails_without_fallback :
    (POST envC2 (some "http://example.com/")).fst =
      ApiResult.err 422 msgTimeout (some "SCRAPE_ERROR") ∧
    (POST envC2 (some "http://example.com/")).snd =
      [Call.cacheGet "http://example.com/", Call.fetchTarget "http://example.com/"] ∧
    ((POST envC2 (some "http://example.com/")).snd.all fun c => !isFallbackCall c) = true := by
  refine ⟨by decide, by decide, by decide⟩

/-- Replace only the cache-put outcome of an environment. -/
def withPut (env : DiagnoseEnv) (p : Except String Unit) : DiagnoseEnv :=
  ⟨env.authUser, env.storeGetFails, env.cacheRows, env.now, env.fetchOutcome,
    env.analyzeOutcome, p, env.historyOutcome⟩

theorem scrapeWebpage_ok_fetched (fo : FetchOutcome) (url c : String)
    (h : (scrapeWebpage fo url).fst = Except.ok c) :
    (scrapeWebpage fo url).snd = true := by
  unfold scrapeWebpage at h ⊢
  cases hv : validateUrl url with
  | error e =>
    rw [hv] at h
    simp at h
  | ok u =>
    cases hf : fetchHtml fo <;> simp

/-- C5: when the cache store's `get` fails while scrape and analysis
succeed, the request still completes with the success response and
`cached = false`; and the cache-put outcome never influences the response
at all (`put` failure is swallowed). -/
theorem cache_store_failure_nonfatal (env : DiagnoseEnv) (url content report : String)
    (hget : env.storeGetFails = true)
    (hscrape : (scrapeWebpage env.fetchOutcome (jsTrim url)).fst = Except.ok content)
    (hai : env.analyzeOutcome = Except.ok report)
    (hurl : jsTrim url ≠ "") :
    (POST env (some url)).fst =
      ApiResult.ok
        (if env.authUser.isSome then report else filterDiagnosisForAnonymous report)
        false env.authUser.isSome env.authUser.isSome ∧
    ∀ p q : Except String Unit,
      POST (withPut env p) (some url) = POST (withPut env q) (some url) := by
  constructor
  · simp [POST, hurl, getCachedDiagnosis, hget, hscrape, hai]
  · intro p q
    rfl

/-- HTML body used in the cache-failure and empty-cache scenarios. -/
def htmlC5 : String := ⟨List.replicate 100 'a'⟩

/-- Environment of the get-failure scenario: the store lookup fails, the
fetch and analysis succeed. -/
def envC5 : DiagnoseEnv :=
  ⟨none, true, [], 0, FetchOutcome.success 200 "OK" "text/html" htmlC5,
    Except.ok "REPORT", Except.ok (), Except.ok ()⟩

/-- Extraction output on `htmlC5`: only the body section is non-empty. -/
def contentC5 : String := "本文: " ++ htmlC5

theorem cache_store_failure_nonfatal_witness :
    envC5.storeGetFails = true ∧
    (scrapeWebpage envC5.fetchOutcome (jsTrim "http://example.com/")).fst =
      Except.ok contentC5 ∧
    (POST envC5 (some "http://example.com/")).fst =
      ApiResult.ok
        (if envC5.authUser.isSome then "REPORT"
         else filterDiagnosisForAnonymous "REPORT")
        false envC5.authUser.isSome envC5.authUser.isSome :=
  ⟨rfl, by decide,
    (cache_store_failure_nonfatal envC5 "http://example.com/" contentC5 "REPORT"
      rfl (by decide) rfl (by decide)).1⟩

/-- C9: when the freshest matching cache row carries an empty result text,
the cache lookup reports a miss even though the store succeeded, and the
request goes on to fetch the target and run the analysis, answering
`cached = false`. -/
theorem empty_cached_result_is_miss (env : DiagnoseEnv)
    (url content report : String) (r : CacheRow)
    (hget : env.storeGetFails = false)
    (hrow : pickLatest (freshRows env.cacheRows (jsTrim url) env.now) = some r)
    (hempty : r.result = "")
    (hscrape : (scrapeWebpage env.fetchOutcome (jsTrim url)).fst = Except.ok content)
    (hai : env.analyzeOutcome = Except.ok report)
    (hurl : jsTrim url ≠ "") :
    getCachedDiagnosis env.storeGetFails env.cacheRows (jsTrim url) env.now = none ∧
    (POST env (some url)).fst =
      ApiResult.ok
        (if env.authUser.isSome then report else filterDiagnosisForAnonymous report)
        false env.authUser.isSome env.authUser.isSome ∧
    Call.fetchTarget (jsTrim url) ∈ (POST env (some url)).snd ∧
    Call.analyze content ∈ (POST env (some url)).snd := by
  have hmiss : getCachedDiagnosis env.storeGetFails env.cacheRows (jsTrim url) env.now
      = none := by
    simp [getCachedDiagnosis, hget, hrow, hempty]
  have hsnd := scrapeWebpage_ok_fetched env.fetchOutcome (jsTrim url) content hscrape
  refine ⟨hmiss, ?_, ?_, ?_⟩
  · simp [POST, hurl, hmiss, hscrape, hai]
  · simp [POST, hurl, hmiss, hscrape, hai, hsnd]
  · simp [POST, hurl, hmiss, hscrape, hai, hsnd]

/-- Environment of the empty-cached-result scenario: a fresh row whose
stored result is the empty string. -/
def envC9 : DiagnoseEnv :=
  ⟨none, false, [⟨"http://example.com/", "", 0⟩], 0,
    FetchOutcome.success 200 "OK" "text/html" htmlC5,
    Except.ok "REPORT", Except.ok (), Except.ok ()⟩

theorem empty_cached_result_is_miss_witness :
    pickLatest (freshRows envC9.cacheRows (jsTrim "http://example.com/") envC9.now) =
      some ⟨"http://example.com/", "", 0⟩ ∧
    getCachedDiagnosis envC9.storeGetFails envC9.cacheRows
      (jsTrim "http://example.com/") envC9.now = none ∧
    Call.analyze contentC5 ∈ (POST envC9 (some "http://example.com/")).snd :=
  ⟨by decide,
    (empty_cached_result_is_miss envC9 "http://example.com/" contentC5 "REPORT"
      ⟨"http://example.com/", "", 0⟩ rfl (by decide) rfl (by decide) rfl (by decide)).1,
    (empty_cached_result_is_miss envC9 "http://example.com/" contentC5 "REPORT"
      ⟨"http://example.com/", "", 0⟩ rfl (by decide) rfl (by decide) rfl
      (by decide)).2.2.2⟩
